import Mathlib

/-!
Shallow embedding of the chromem-go vector-store adapter of langchaingo
(package `vectorstores/chromem`): store construction and client options,
`AddDocuments`, `SimilaritySearch`, `getOptions` and `validateOptions`.

The external chromem-go engine is modelled explicitly where the adapter
drives it (collections as an association list of named document lists;
`GetCollection`, `GetOrCreateCollection`, `AddDocument`) and as an opaque
parameter where the adapter merely delegates (`Query`, the embedder).
Go maps are association lists; `float32` scores are ℚ; the distinct Go
error values are an inductive type.
-/

namespace Chromem

/-- Embedding vectors are opaque to the adapter (it only moves them from the
embedder to the engine), so the carrier type is irrelevant here. -/
abbrev Emb := List Int

/-- A Go `any` metadata value as the adapter distinguishes it: a string, or a
value of any other dynamic type. -/
inductive MetaVal where
  | str (s : String)
  | nonStr
deriving DecidableEq

/-- Whether the dynamic value is a string, i.e. whether the Go type assertion
`v.(string)` succeeds. -/
def MetaVal.isStr : MetaVal → Bool
  | .str _ => true
  | .nonStr => false

/-- langchaingo `schema.Document`: `PageContent string`,
`Metadata map[string]any`, `Score float32`. -/
structure Document where
  pageContent : String
  metadata : List (String × MetaVal)
  score : ℚ
deriving DecidableEq

/-- The Go `any` value held in `Options.Filters`: either a
`map[string]string` (the only shape this adapter accepts) or a value of any
other dynamic type. -/
inductive FilterVal where
  | strMap (m : List (String × String))
  | other
deriving DecidableEq

/-- Modelled from the spec: the generic `vectorstores.Options` record (the
option set lives in the framework package, outside this adapter's sources):
namespace override, score threshold, metadata filter, deduplication hook and
per-call embedder override, the last two being interface fields of which only
presence (nil or not) matters to this adapter. Go zero values: empty
namespace, threshold 0, all three handles nil. -/
structure Options where
  nameSpace : String
  scoreThreshold : ℚ
  filters : Option FilterVal
  deduplicater : Option Unit
  embedder : Option Unit
deriving DecidableEq

/-- `vectorstores.Option`: a function mutating the options record. -/
abbrev VSOption := Options → Options

/-- Modelled from the spec: the per-call namespace override option
(`vectorstores.WithNameSpace`), setting the namespace field. -/
def WithNameSpace (ns : String) : VSOption :=
  fun o => { o with nameSpace := ns }

/-- Modelled from the spec: the score-threshold option
(`vectorstores.WithScoreThreshold`), setting the score-threshold field. -/
def WithScoreThreshold (t : ℚ) : VSOption :=
  fun o => { o with scoreThreshold := t }

/-- Modelled from the spec: the metadata-filter option
(`vectorstores.WithFilters`), setting the filters field. -/
def WithFilters (f : FilterVal) : VSOption :=
  fun o => { o with filters := some f }

/-- chromem-go `Document` as submitted by the adapter: ID, string-valued
metadata, embedding, content. -/
structure StoredDoc where
  id : String
  metadata : List (String × String)
  embedding : Emb
  content : String
deriving DecidableEq

/-- chromem-go query `Result` as consumed by the adapter: content, metadata
and cosine similarity. -/
structure QueryResult where
  content : String
  metadata : List (String × String)
  similarity : ℚ
deriving DecidableEq

/-- The chromem-go DB as the adapter drives it: named collections, each
holding the documents submitted to it in order. -/
abbrev DB := List (String × List StoredDoc)

/-- The distinct validation errors of `validateOptions`. -/
inductive ValidationError where
  | unsupportedOptions
  | emptyNamespace
  | thresholdOutOfRange
  | badFilterType
deriving DecidableEq

/-- The distinct error outcomes of the adapter, one per `errors.New` /
wrapped error of the Go code; `panicFilterAssertion` and
`panicIndexOutOfRange` stand for the run-time panics Go would raise at
`opts.Filters.(map[string]string)` and `embeddings[i]`. -/
inductive StoreError where
  | invalidOptions (e : ValidationError)
  | embedderRequired
  | embedFailed (msg : String)
  | metadataNotString
  | namespaceNotFound
  | queryFailed (msg : String)
  | panicFilterAssertion
  | panicIndexOutOfRange
deriving DecidableEq

/-- The `Store` struct. The `embedder` interface field is modelled by its
presence; the concrete embedding functions are passed as parameters to the
operations that use them. The `db` handle is the modelled engine state. -/
structure Store where
  persistent : Bool := false
  persistPath : String := ""
  compress : Bool := false
  defaultCollectionName : String := ""
  embedder : Option Unit := none
  db : DB := []
deriving DecidableEq

def defaultPersistPath : String := "./langchaingo"

def defaultCompress : Bool := false

/-- `Option` (client option): a function mutating the store under
construction. -/
abbrev ClientOption := Store → Store

/-- `WithPersistence`: enables persistence, stores the given path (note: the
Go code assigns the path unconditionally, even when it is empty) and the
compression flag. -/
def WithPersistence (path : String) (compress : Bool) : ClientOption :=
  fun s => { s with persistent := true, persistPath := path, compress := compress }

/-- `WithDefaultNamespace`: sets the default collection name. -/
def WithDefaultNamespace (ns : String) : ClientOption :=
  fun s => { s with defaultCollectionName := ns }

/-- `WithEmbedder`: stores the injected embedder handle (modelled by
presence). -/
def WithEmbedder : ClientOption :=
  fun s => { s with embedder := some () }

/-- The initial store of `applyClientOptions`:
`&Store{persistPath: defaultPersistPath, compress: defaultCompress}`, all
other fields Go zero values. -/
def initialStore : Store :=
  { persistPath := defaultPersistPath, compress := defaultCompress }

/-- `applyClientOptions`: fold the options over the initial store and fail
iff no embedder was supplied. -/
def applyClientOptions (opts : List ClientOption) : Except StoreError Store :=
  if (opts.foldl (fun s o => o s) initialStore).embedder.isSome
  then .ok (opts.foldl (fun s o => o s) initialStore)
  else .error .embedderRequired

/-- `New`: applies the client options. The subsequent engine-DB creation
(`chromem.NewDB` / `chromem.NewPersistentDB`) is delegated to the external
engine and modelled as succeeding; the query-embedding adapter `s.ef` is the
embedder handle itself, passed as a parameter where used. -/
def new (opts : List ClientOption) : Except StoreError Store :=
  match applyClientOptions opts with
  | .error e => .error e
  | .ok s => .ok s

/-- `getOptions`: apply the call-specific option functions, in order, to the
defaults record. -/
def getOptions (defaults : Options) (opts : List VSOption) : Options :=
  opts.foldl (fun res opt => opt res) defaults

/-- The defaults record built by both methods:
`vectorstores.Options{NameSpace: s.defaultCollectionName}` (all other fields
Go zero values). -/
def storeDefaults (s : Store) : Options :=
  { nameSpace := s.defaultCollectionName, scoreThreshold := 0,
    filters := none, deduplicater := none, embedder := none }

/-- `validateOptions`: reject unsupported options (deduplicater or embedder
override set), an empty namespace, a score threshold outside [0,1], and a
filter that is not a `map[string]string`. -/
def validateOptions (o : Options) : Except ValidationError Unit :=
  if o.deduplicater.isSome || o.embedder.isSome then .error .unsupportedOptions
  else if o.nameSpace = "" then .error .emptyNamespace
  else if o.scoreThreshold < 0 ∨ 1 < o.scoreThreshold then .error .thresholdOutOfRange
  else
    match o.filters with
    | some (.strMap _) => .ok ()
    | some .other => .error .badFilterType
    | none => .ok ()

/-- chromem-go `DB.GetCollection`: look the name up, nil when absent. -/
def getCollection : DB → String → Option (List StoredDoc)
  | [], _ => none
  | e :: rest, name => if e.1 == name then some e.2 else getCollection rest name

/-- chromem-go `DB.GetOrCreateCollection`: reuse the existing collection or
create an empty one. -/
def getOrCreateCollection (db : DB) (name : String) : DB :=
  match getCollection db name with
  | some _ => db
  | none => db ++ [(name, [])]

/-- chromem-go `Collection.AddDocument`: append the document to the named
collection. -/
def dbAddDocument : DB → String → StoredDoc → DB
  | [], _, _ => []
  | e :: rest, name, d =>
    (if e.1 == name then (e.1, e.2 ++ [d]) else e) :: dbAddDocument rest name d

/-- The per-document metadata conversion loop of `AddDocuments`: build the
engine's string-only metadata map, failing on the first non-string value. -/
def convertMetadata : List (String × MetaVal) → Except StoreError (List (String × String))
  | [] => .ok []
  | (k, .str v) :: rest =>
    match convertMetadata rest with
    | .error e => .error e
    | .ok tail => .ok ((k, v) :: tail)
  | (_, .nonStr) :: _ => .error .metadataNotString

/-- The langchaingo batch embedder call `EmbedDocuments`, injected by the
caller of the store; it may fail with an engine-side message. -/
abbrev EmbedFn := List String → Except String (List Emb)

/-- The chromem-go `Collection.Query` call (cosine nearest-neighbour search
over the collection's documents, with an optional metadata `where` filter),
delegated to the external engine. -/
abbrev QueryFn :=
  List StoredDoc → String → Nat → Option (List (String × String)) → Except String (List QueryResult)

/-- The per-document loop of `AddDocuments`: for each document generate the
fresh ID `uuid n` (`uuid.NewString`, modelled as an ID supply indexed by
position), convert the metadata, and submit
`chromem.Document{ID, Metadata, Embedding: embeddings[i], Content}` to the
collection; any failure aborts the loop, returning the error together with
the engine state reached so far. -/
def addLoop (uuid : Nat → String) (name : String) :
    DB → Nat → List Document → List Emb → Except StoreError (List String) × DB
  | db, _, [], _ => (.ok [], db)
  | db, n, doc :: drest, embs =>
    match convertMetadata doc.metadata with
    | .error e => (.error e, db)
    | .ok md =>
      match embs with
      | [] => (.error .panicIndexOutOfRange, db)
      | emb :: erest =>
        match addLoop uuid name
            (dbAddDocument db name
              { id := uuid n, metadata := md, embedding := emb, content := doc.pageContent })
            (n + 1) drest erest with
        | (.error e, db2) => (.error e, db2)
        | (.ok ids, db2) => (.ok (uuid n :: ids), db2)

/-- `Store.AddDocuments`: resolve and validate options, get or create the
target collection, batch-embed all contents, then add the documents one by
one. Returns the generated IDs (or the first error) together with the engine
state after the call. -/
def addDocuments (s : Store) (embed : EmbedFn) (uuid : Nat → String) (n0 : Nat)
    (docs : List Document) (options : List VSOption) :
    Except StoreError (List String) × DB :=
  match validateOptions (getOptions (storeDefaults s) options) with
  | .error e => (.error (.invalidOptions e), s.db)
  | .ok _ =>
    match embed (docs.map (fun d => d.pageContent)) with
    | .error e =>
      (.error (.embedFailed e),
       getOrCreateCollection s.db (getOptions (storeDefaults s) options).nameSpace)
    | .ok embs =>
      addLoop uuid (getOptions (storeDefaults s) options).nameSpace
        (getOrCreateCollection s.db (getOptions (storeDefaults s) options).nameSpace)
        n0 docs embs

/-- The filter extraction of `SimilaritySearch`:
`where = opts.Filters.(map[string]string)` when a filter is present; a failed
Go type assertion panics. -/
def extractFilters : Option FilterVal → Except StoreError (Option (List (String × String)))
  | none => .ok none
  | some (.strMap m) => .ok (some m)
  | some .other => .error .panicFilterAssertion

/-- The result conversion of `SimilaritySearch`: content, metadata converted
back to the generic any-valued map, similarity attached as the score. -/
def resultToDoc (r : QueryResult) : Document :=
  { pageContent := r.content,
    metadata := r.metadata.map (fun kv => (kv.1, MetaVal.str kv.2)),
    score := r.similarity }

/-- `Store.SimilaritySearch`: resolve and validate options, extract the
metadata filter, look the collection up (failing when the namespace has no
collection), delegate the query to the engine, then drop every result whose
similarity is below the score threshold. -/
def similaritySearch (s : Store) (qe : QueryFn) (q : String) (numDocuments : Nat)
    (options : List VSOption) : Except StoreError (List Document) :=
  match validateOptions (getOptions (storeDefaults s) options) with
  | .error e => .error (.invalidOptions e)
  | .ok _ =>
    match extractFilters (getOptions (storeDefaults s) options).filters with
    | .error e => .error e
    | .ok w =>
      match getCollection s.db (getOptions (storeDefaults s) options).nameSpace with
      | none => .error .namespaceNotFound
      | some coll =>
        match qe coll q numDocuments w with
        | .error e => .error (.queryFailed e)
        | .ok results =>
          .ok ((results.filter
              (fun r => decide ((getOptions (storeDefaults s) options).scoreThreshold ≤ r.similarity))).map
            resultToDoc)

/-- The string-only image of an all-string metadata map (what the conversion
loop of `AddDocuments` produces when it succeeds). -/
def strMeta (md : List (String × MetaVal)) : List (String × String) :=
  md.filterMap (fun kv =>
    match kv.2 with
    | .str v => some (kv.1, v)
    | .nonStr => none)

/-- The stored documents that a successful prefix of the add loop submits:
one per document, with the position-indexed fresh ID, converted metadata,
and the matching embedding. -/
def expectedStored (uuid : Nat → String) : Nat → List Document → List Emb → List StoredDoc
  | _, [], _ => []
  | _, _ :: _, [] => []
  | n, doc :: drest, emb :: erest =>
    { id := uuid n, metadata := strMeta doc.metadata, embedding := emb,
      content := doc.pageContent } :: expectedStored uuid (n + 1) drest erest

/-- Submitting a list of documents to the named collection in order. -/
def addAll (db : DB) (name : String) (l : List StoredDoc) : DB :=
  l.foldl (fun d sd => dbAddDocument d name sd) db

/-- The IDs generated by `k` consecutive draws of the supply starting at
position `n`. -/
def idsFrom (uuid : Nat → String) : Nat → Nat → List String
  | _, 0 => []
  | n, k + 1 => uuid n :: idsFrom uuid (n + 1) k

/-! ### Helper lemmas about the metadata conversion -/

theorem convertMetadata_ok (md : List (String × MetaVal))
    (h : ∀ kv ∈ md, MetaVal.isStr kv.2 = true) :
    convertMetadata md = .ok (strMeta md) := by
  induction md with
  | nil => rfl
  | cons kv rest ih =>
    obtain ⟨k, v⟩ := kv
    cases v with
    | str s =>
      have hrest : ∀ kv ∈ rest, MetaVal.isStr kv.2 = true :=
        fun kv hkv => h kv (List.mem_cons_of_mem _ hkv)
      simp [convertMetadata, strMeta, List.filterMap_cons, ih hrest]
    | nonStr =>
      have := h (k, MetaVal.nonStr) (List.mem_cons_self _ _)
      simp [MetaVal.isStr] at this

theorem convertMetadata_error (md : List (String × MetaVal))
    (h : ∃ kv ∈ md, kv.2 = MetaVal.nonStr) :
    convertMetadata md = .error .metadataNotString := by
  induction md with
  | nil => simp at h
  | cons kv rest ih =>
    obtain ⟨k, v⟩ := kv
    cases v with
    | str s =>
      have hrest : ∃ kv ∈ rest, kv.2 = MetaVal.nonStr := by
        obtain ⟨w, hw, hw2⟩ := h
        rcases List.mem_cons.mp hw with heq | hmem
        · subst heq; simp at hw2
        · exact ⟨w, hmem, hw2⟩
      simp [convertMetadata, ih hrest]
    | nonStr => rfl

theorem strMeta_roundtrip (md : List (String × MetaVal))
    (h : ∀ kv ∈ md, MetaVal.isStr kv.2 = true) :
    (strMeta md).map (fun kv => (kv.1, MetaVal.str kv.2)) = md := by
  induction md with
  | nil => rfl
  | cons kv rest ih =>
    obtain ⟨k, v⟩ := kv
    cases v with
    | str s =>
      have hrest : ∀ kv ∈ rest, MetaVal.isStr kv.2 = true :=
        fun kv hkv => h kv (List.mem_cons_of_mem _ hkv)
      simpa [strMeta, List.filterMap_cons] using ih hrest
    | nonStr =>
      have := h (k, MetaVal.nonStr) (List.mem_cons_self _ _)
      simp [MetaVal.isStr] at this

/-! ### Helper lemmas about the modelled engine state -/

theorem getCollection_dbAdd_self (db : DB) (ns : String) (d : StoredDoc)
    (c : List StoredDoc) (h : getCollection db ns = some c) :
    getCollection (dbAddDocument db ns d) ns = some (c ++ [d]) := by
  induction db with
  | nil => simp [getCollection] at h
  | cons e rest ih =>
    by_cases he : (e.1 == ns) = true
    · simp only [getCollection, he, if_pos] at h
      simp only [dbAddDocument, he, if_pos, getCollection]
      rw [Option.some_inj] at h
      simp [h]
    · have he' : (e.1 == ns) = false := by simpa using he
      simp only [getCollection, he', Bool.false_eq_true, if_neg, if_false] at h
      simp only [dbAddDocument, he', Bool.false_eq_true, if_false, getCollection]
      exact ih h

theorem getCollection_dbAdd_isSome (db : DB) (name : String) (d : StoredDoc) (ns : String) :
    (getCollection (dbAddDocument db name d) ns).isSome
      = (getCollection db ns).isSome := by
  induction db with
  | nil => rfl
  | cons e rest ih =>
    by_cases hn : (e.1 == name) = true
    · by_cases he : (e.1 == ns) = true
      · simp [dbAddDocument, getCollection, hn, he]
      · have he' : (e.1 == ns) = false := by simpa using he
        simp only [dbAddDocument, hn, if_pos, getCollection, he', Bool.false_eq_true, if_false]
        exact ih
    · have hn' : (e.1 == name) = false := by simpa using hn
      by_cases he : (e.1 == ns) = true
      · simp [dbAddDocument, getCollection, hn', he]
      · have he' : (e.1 == ns) = false := by simpa using he
        simp only [dbAddDocument, hn', Bool.false_eq_true, if_false, getCollection, he']
        exact ih

theorem getCollection_append_self (db : DB) (ns : String)
    (h : getCollection db ns = none) :
    getCollection (db ++ [(ns, [])]) ns = some [] := by
  induction db with
  | nil => simp [getCollection]
  | cons e rest ih =>
    by_cases he : (e.1 == ns) = true
    · simp [getCollection, he] at h
    · have he' : (e.1 == ns) = false := by simpa using he
      simp only [getCollection, he', Bool.false_eq_true, if_false] at h
      simpa only [List.cons_append, getCollection, he', Bool.false_eq_true, if_false]
        using ih h

theorem getCollection_getOrCreate (db : DB) (ns : String) :
    getCollection (getOrCreateCollection db ns) ns
      = some ((getCollection db ns).getD []) := by
  cases h : getCollection db ns with
  | some c => simp [getOrCreateCollection, h]
  | none => simp [getOrCreateCollection, h, getCollection_append_self db ns h]

theorem getCollection_addAll_self (ns : String) (l : List StoredDoc) :
    ∀ (db : DB) (c : List StoredDoc), getCollection db ns = some c →
      getCollection (addAll db ns l) ns = some (c ++ l) := by
  induction l with
  | nil => intro db c h; simpa [addAll] using h
  | cons sd rest ih =>
    intro db c h
    have step := getCollection_dbAdd_self db ns sd c h
    have := ih (dbAddDocument db ns sd) (c ++ [sd]) step
    simpa [addAll, List.foldl_cons, List.append_assoc] using this

/-! ### Helper lemmas about the fresh-ID supply -/

theorem idsFrom_length (uuid : Nat → String) :
    ∀ (k n : Nat), (idsFrom uuid n k).length = k := by
  intro k
  induction k with
  | zero => intro n; rfl
  | succ k ih => intro n; simp [idsFrom, ih]

theorem idsFrom_eq_map (uuid : Nat → String) :
    ∀ (k n : Nat), idsFrom uuid n k = (List.range k).map (fun i => uuid (n + i)) := by
  intro k
  induction k with
  | zero => intro n; rfl
  | succ k ih =>
    intro n
    simp only [idsFrom, List.range_succ_eq_map, List.map_cons, Nat.add_zero, List.map_map]
    refine congrArg (uuid n :: ·) ?_
    rw [ih (n + 1)]
    refine List.map_congr_left ?_
    intro i _
    simp only [Function.comp_apply]
    congr 1
    omega

theorem idsFrom_nodup (uuid : Nat → String) (hinj : Function.Injective uuid)
    (n k : Nat) : (idsFrom uuid n k).Nodup := by
  rw [idsFrom_eq_map]
  refine List.Nodup.map ?_ (List.nodup_range k)
  intro a b hab
  have := hinj hab
  omega

/-! ### Helper lemmas about the per-document add loop -/

theorem addLoop_ok (uuid : Nat → String) (name : String) :
    ∀ (docs : List Document) (embs : List Emb) (db : DB) (n : Nat),
      (∀ d ∈ docs, ∀ kv ∈ d.metadata, MetaVal.isStr kv.2 = true) →
      docs.length ≤ embs.length →
      addLoop uuid name db n docs embs
        = (.ok (idsFrom uuid n docs.length),
           addAll db name (expectedStored uuid n docs embs)) := by
  intro docs
  induction docs with
  | nil => intro embs db n _ _; simp [addLoop, idsFrom, expectedStored, addAll]
  | cons doc drest ih =>
    intro embs db n hmeta hlen
    cases embs with
    | nil => simp at hlen
    | cons emb erest =>
      have hdoc : ∀ kv ∈ doc.metadata, MetaVal.isStr kv.2 = true :=
        hmeta doc (List.mem_cons_self _ _)
      have hrest : ∀ d ∈ drest, ∀ kv ∈ d.metadata, MetaVal.isStr kv.2 = true :=
        fun d hd => hmeta d (List.mem_cons_of_mem _ hd)
      have hlen' : drest.length ≤ erest.length := by simpa using hlen
      simp only [addLoop, convertMetadata_ok doc.metadata hdoc]
      rw [ih erest _ (n + 1) hrest hlen']
      simp [idsFrom, expectedStored, addAll, List.length_cons]

theorem addLoop_fail (uuid : Nat → String) (name : String)
    (bad : Document) (post : List Document)
    (hbad : ∃ kv ∈ bad.metadata, kv.2 = MetaVal.nonStr) :
    ∀ (pre : List Document) (embs : List Emb) (db : DB) (n : Nat),
      (∀ d ∈ pre, ∀ kv ∈ d.metadata, MetaVal.isStr kv.2 = true) →
      pre.length ≤ embs.length →
      addLoop uuid name db n (pre ++ bad :: post) embs
        = (.error .metadataNotString,
           addAll db name (expectedStored uuid n pre embs)) := by
  intro pre
  induction pre with
  | nil =>
    intro embs db n _ _
    simp [addLoop, convertMetadata_error bad.metadata hbad, expectedStored, addAll]
  | cons doc drest ih =>
    intro embs db n hmeta hlen
    cases embs with
    | nil => simp at hlen
    | cons emb erest =>
      have hdoc : ∀ kv ∈ doc.metadata, MetaVal.isStr kv.2 = true :=
        hmeta doc (List.mem_cons_self _ _)
      have hrest : ∀ d ∈ drest, ∀ kv ∈ d.metadata, MetaVal.isStr kv.2 = true :=
        fun d hd => hmeta d (List.mem_cons_of_mem _ hd)
      have hlen' : drest.length ≤ erest.length := by simpa using hlen
      simp only [List.cons_append, addLoop, convertMetadata_ok doc.metadata hdoc,
        List.append_eq]
      rw [ih erest _ (n + 1) hrest hlen']
      simp [expectedStored, addAll]

theorem addLoop_preserves_isSome (uuid : Nat → String) (name : String) (ns : String) :
    ∀ (docs : List Document) (embs : List Emb) (db : DB) (n : Nat),
      (getCollection db ns).isSome = true →
      (getCollection (addLoop uuid name db n docs embs).2 ns).isSome = true := by
  intro docs
  induction docs with
  | nil => intro embs db n h; simpa [addLoop] using h
  | cons doc drest ih =>
    intro embs db n h
    cases hc : convertMetadata doc.metadata with
    | error e => simpa [addLoop, hc] using h
    | ok md =>
      cases embs with
      | nil => simpa [addLoop, hc] using h
      | cons emb erest =>
        have hdb : (getCollection (dbAddDocument db name
            { id := uuid n, metadata := md, embedding := emb,
              content := doc.pageContent }) ns).isSome = true := by
          rw [getCollection_dbAdd_isSome]; exact h
        have := ih erest (dbAddDocument db name
            { id := uuid n, metadata := md, embedding := emb,
              content := doc.pageContent }) (n + 1) hdb
        cases hstep : addLoop uuid name (dbAddDocument db name
            { id := uuid n, metadata := md, embedding := emb,
              content := doc.pageContent }) (n + 1) drest erest with
        | mk r db2 =>
          rw [hstep] at this
          cases r with
          | error e => simpa [addLoop, hc, hstep] using this
          | ok ids => simpa [addLoop, hc, hstep] using this

theorem expectedStored_length (uuid : Nat → String) :
    ∀ (docs : List Document) (embs : List Emb) (n : Nat),
      docs.length ≤ embs.length →
      (expectedStored uuid n docs embs).length = docs.length := by
  intro docs
  induction docs with
  | nil => intro embs n _; cases embs <;> rfl
  | cons doc drest ih =>
    intro embs n hlen
    cases embs with
    | nil => simp at hlen
    | cons emb erest =>
      have hlen' : drest.length ≤ erest.length := by simpa using hlen
      simp [expectedStored, ih erest (n + 1) hlen']

/-! ### Claim theorems -/

/-- C1: for a batch whose options validate and whose metadata values are all
strings, with the embedder succeeding (one vector per document) and the
ID supply injective, `AddDocuments` returns the list of generated IDs — one
per input document, the i-th ID generated for the i-th document — and these
IDs are pairwise distinct. -/
theorem addDocuments_one_fresh_id_per_document
    (s : Store) (embed : EmbedFn) (uuid : Nat → String) (n0 : Nat)
    (docs : List Document) (options : List VSOption) (embs : List Emb)
    (hval : validateOptions (getOptions (storeDefaults s) options) = .ok ())
    (hmeta : ∀ d ∈ docs, ∀ kv ∈ d.metadata, MetaVal.isStr kv.2 = true)
    (hembed : embed (docs.map (fun d => d.pageContent)) = .ok embs)
    (hlen : docs.length ≤ embs.length)
    (hinj : Function.Injective uuid) :
    ∃ dbF, addDocuments s embed uuid n0 docs options
        = (.ok (idsFrom uuid n0 docs.length), dbF)
      ∧ (idsFrom uuid n0 docs.length).length = docs.length
      ∧ (idsFrom uuid n0 docs.length).Nodup
      ∧ idsFrom uuid n0 docs.length
          = (List.range docs.length).map (fun i => uuid (n0 + i)) := by
  have hloop := addLoop_ok uuid (getOptions (storeDefaults s) options).nameSpace
    docs embs
    (getOrCreateCollection s.db (getOptions (storeDefaults s) options).nameSpace)
    n0 hmeta hlen
  refine ⟨addAll
      (getOrCreateCollection s.db (getOptions (storeDefaults s) options).nameSpace)
      (getOptions (storeDefaults s) options).nameSpace
      (expectedStored uuid n0 docs embs),
    ?_, idsFrom_length uuid _ _, idsFrom_nodup uuid hinj _ _,
    idsFrom_eq_map uuid _ _⟩
  unfold addDocuments
  rw [hval, hembed]
  exact hloop

/-- C2: when the resolved options validate, the filter extraction yields
`w`, the collection exists and the engine query succeeds with `results`,
`SimilaritySearch` returns exactly the subsequence of `results` whose
similarity is at least the resolved score threshold, converted with the
score attached, in the engine's order; in particular every returned document
scores at least the threshold. -/
theorem similaritySearch_threshold_filters
    (s : Store) (qe : QueryFn) (q : String) (nd : Nat) (options : List VSOption)
    (w : Option (List (String × String))) (coll : List StoredDoc)
    (results : List QueryResult)
    (hval : validateOptions (getOptions (storeDefaults s) options) = .ok ())
    (hfilt : extractFilters (getOptions (storeDefaults s) options).filters = .ok w)
    (hcoll : getCollection s.db (getOptions (storeDefaults s) options).nameSpace
        = some coll)
    (hq : qe coll q nd w = .ok results) :
    similaritySearch s qe q nd options
      = .ok ((results.filter
          (fun r => decide ((getOptions (storeDefaults s) options).scoreThreshold
            ≤ r.similarity))).map resultToDoc)
    ∧ ∀ d ∈ (results.filter
          (fun r => decide ((getOptions (storeDefaults s) options).scoreThreshold
            ≤ r.similarity))).map resultToDoc,
        (getOptions (storeDefaults s) options).scoreThreshold ≤ d.score := by
  constructor
  · unfold similaritySearch
    simp only [hval, hfilt, hcoll, hq]
  · intro d hd
    obtain ⟨r, hr, rfl⟩ := List.mem_map.mp hd
    have hkeep := (List.mem_filter.mp hr).2
    exact of_decide_eq_true hkeep

/-- C3: for a metadata map whose values are all strings, the add-time
conversion succeeds with a string map having the same keys and string
values, and the search-time conversion back to the generic any-valued map
recovers the input exactly — the round trip changes only the value typing. -/
theorem metadata_string_roundtrip
    (md : List (String × MetaVal)) (content : String) (sim : ℚ)
    (h : ∀ kv ∈ md, MetaVal.isStr kv.2 = true) :
    ∃ stored, convertMetadata md = .ok stored
      ∧ (resultToDoc
          { content := content, metadata := stored, similarity := sim }).metadata = md
      ∧ stored.map (fun kv => kv.1) = md.map (fun kv => kv.1) := by
  refine ⟨strMeta md, convertMetadata_ok md h, ?_, ?_⟩
  · simpa [resultToDoc] using strMeta_roundtrip md h
  · conv_rhs => rw [← strMeta_roundtrip md h]
    simp [List.map_map, Function.comp]

/-- C4 (amended): when a document with a non-string metadata value is
reached — all documents before it converting cleanly and the embedder having
succeeded — `AddDocuments` returns the metadata-type error with no IDs, the
offending document and all later documents are NOT submitted, and exactly
the earlier documents of the batch remain committed to the collection. -/
theorem addDocuments_metadata_error_aborts
    (s : Store) (embed : EmbedFn) (uuid : Nat → String) (n0 : Nat)
    (pre : List Document) (bad : Document) (post : List Document)
    (options : List VSOption) (embs : List Emb)
    (hval : validateOptions (getOptions (storeDefaults s) options) = .ok ())
    (hpre : ∀ d ∈ pre, ∀ kv ∈ d.metadata, MetaVal.isStr kv.2 = true)
    (hbad : ∃ kv ∈ bad.metadata, kv.2 = MetaVal.nonStr)
    (hembed : embed ((pre ++ bad :: post).map (fun d => d.pageContent)) = .ok embs)
    (hlen : pre.length ≤ embs.length) :
    addDocuments s embed uuid n0 (pre ++ bad :: post) options
      = (.error .metadataNotString,
         addAll
           (getOrCreateCollection s.db (getOptions (storeDefaults s) options).nameSpace)
           (getOptions (storeDefaults s) options).nameSpace
           (expectedStored uuid n0 pre embs))
    ∧ getCollection
        (addAll
          (getOrCreateCollection s.db (getOptions (storeDefaults s) options).nameSpace)
          (getOptions (storeDefaults s) options).nameSpace
          (expectedStored uuid n0 pre embs))
        (getOptions (storeDefaults s) options).nameSpace
      = some (((getCollection s.db (getOptions (storeDefaults s) options).nameSpace).getD [])
          ++ expectedStored uuid n0 pre embs)
    ∧ (expectedStored uuid n0 pre embs).length = pre.length := by
  refine ⟨?_, ?_, expectedStored_length uuid pre embs n0 hlen⟩
  · have hloop := addLoop_fail uuid (getOptions (storeDefaults s) options).nameSpace
      bad post hbad pre embs
      (getOrCreateCollection s.db (getOptions (storeDefaults s) options).nameSpace)
      n0 hpre hlen
    unfold addDocuments
    rw [hval, hembed]
    exact hloop
  · exact getCollection_addAll_self _ _ _ _
      (getCollection_getOrCreate s.db (getOptions (storeDefaults s) options).nameSpace)

/-- A fixed concrete store with default namespace "ns" and a fresh engine. -/
def storeNs : Store := { defaultCollectionName := "ns" }

/-- A concrete embedder that returns one (empty) vector per input text. -/
def embedOk : EmbedFn := fun texts => .ok (texts.map (fun _ => ([] : Emb)))

/-- A concrete injective ID supply: n ↦ the string of n repetitions of 'a'. -/
def uuidSeq : Nat → String := fun n => String.mk (List.replicate n 'a')

theorem uuidSeq_injective : Function.Injective uuidSeq := by
  intro a b h
  have h2 : List.replicate a 'a' = List.replicate b 'a' := by
    simpa [uuidSeq] using congrArg String.data h
  simpa using congrArg List.length h2

/-- A concrete document whose metadata holds a non-string value. -/
def badDoc : Document :=
  { pageContent := "a", metadata := [("k", MetaVal.nonStr)], score := 0 }

/-- C4 counterexample: calling `AddDocuments` on the batch `[badDoc]` (whose
single document has a non-string metadata value) yields the metadata-type
error, yet the target collection ends up EMPTY: contrary to the claim, the
offending document is never submitted to the collection (the error is raised
before the engine submission of that document). -/
theorem addDocuments_bad_doc_not_submitted :
    addDocuments storeNs embedOk uuidSeq 0 [badDoc] []
      = (.error .metadataNotString, [("ns", [])])
    ∧ getCollection (addDocuments storeNs embedOk uuidSeq 0 [badDoc] []).2 "ns"
      = some [] := by
  constructor <;> rfl

/-- C5: when the resolved options fail validation, both `AddDocuments` and
`SimilaritySearch` return the wrapped validation error immediately: the
engine state is returned unchanged and the conclusion is independent of the
embedder, the ID supply and the query engine — none of them is consulted. -/
theorem validation_failure_fail_fast
    (s : Store) (docs : List Document) (options : List VSOption) (q : String)
    (nd : Nat) (embed : EmbedFn) (uuid : Nat → String) (n0 : Nat) (qe : QueryFn)
    (e : ValidationError)
    (hval : validateOptions (getOptions (storeDefaults s) options) = .error e) :
    addDocuments s embed uuid n0 docs options = (.error (.invalidOptions e), s.db)
    ∧ similaritySearch s qe q nd options = .error (.invalidOptions e) := by
  constructor
  · unfold addDocuments
    rw [hval]
  · unfold similaritySearch
    rw [hval]

/-- C6: when the resolved options validate but the resolved namespace has no
collection, `SimilaritySearch` fails with the namespace-not-found error for
every query engine (it neither creates the collection nor returns an empty
result), while `AddDocuments` on the same store always leaves the resolved
namespace with an existing collection — the documented asymmetry. -/
theorem similaritySearch_namespace_not_found
    (s : Store) (qe : QueryFn) (q : String) (nd : Nat) (options : List VSOption)
    (embed : EmbedFn) (uuid : Nat → String) (n0 : Nat) (docs : List Document)
    (hval : validateOptions (getOptions (storeDefaults s) options) = .ok ())
    (hnone : getCollection s.db (getOptions (storeDefaults s) options).nameSpace
        = none) :
    similaritySearch s qe q nd options = .error .namespaceNotFound
    ∧ (getCollection (addDocuments s embed uuid n0 docs options).2
        (getOptions (storeDefaults s) options).nameSpace).isSome = true := by
  constructor
  · unfold similaritySearch
    rw [hval]
    rcases hf : extractFilters (getOptions (storeDefaults s) options).filters with e | w
    · exfalso
      cases hfo : (getOptions (storeDefaults s) options).filters with
      | none => rw [hfo] at hf; exact absurd hf (by simp [extractFilters])
      | some fv =>
        cases fv with
        | strMap m => rw [hfo] at hf; exact absurd hf (by simp [extractFilters])
        | other =>
          rw [hfo] at hf
          unfold validateOptions at hval
          rw [hfo] at hval
          split_ifs at hval
    · simp only [hf, hnone]
  · have hsome : (getCollection
        (getOrCreateCollection s.db (getOptions (storeDefaults s) options).nameSpace)
        (getOptions (storeDefaults s) options).nameSpace).isSome = true := by
      rw [getCollection_getOrCreate]
      rfl
    unfold addDocuments
    rw [hval]
    cases hemb : embed (docs.map (fun d => d.pageContent)) with
    | error e => simpa using hsome
    | ok embs =>
      exact addLoop_preserves_isSome uuid _ _ docs embs _ n0 hsome

/-- C7: effective options start from the record whose namespace is the
store's default (all other fields zero), the option functions are applied
sequentially in the order given, and a namespace override placed after any
earlier options — in particular after the store-wide default — determines
the resolved namespace. -/
theorem getOptions_order_and_override
    (s : Store) (d : Options) (o : VSOption) (rest pre : List VSOption) (ns : String) :
    (getOptions (storeDefaults s) []).nameSpace = s.defaultCollectionName
    ∧ getOptions d (o :: rest) = getOptions (o d) rest
    ∧ (getOptions d (pre ++ [WithNameSpace ns])).nameSpace = ns := by
  refine ⟨rfl, rfl, ?_⟩
  simp [getOptions, List.foldl_append, WithNameSpace]

/-- C8: store construction succeeds exactly when, after folding all client
options over the initial store, an embedder is present; when it is absent
the construction fails with the configuration error — the embedder is the
only mandatory option (the engine open is assumed to succeed). -/
theorem construction_requires_embedder (opts : List ClientOption) :
    ((∃ st, new opts = .ok st)
      ↔ (opts.foldl (fun s o => o s) initialStore).embedder.isSome = true)
    ∧ (new opts = .error .embedderRequired
      ↔ (opts.foldl (fun s o => o s) initialStore).embedder.isSome = false) := by
  unfold new applyClientOptions
  by_cases h : (opts.foldl (fun s o => o s) initialStore).embedder.isSome = true
  · simp [h]
  · have h' : (opts.foldl (fun s o => o s) initialStore).embedder.isSome = false := by
      simpa using h
    simp [h']

/-- C9 evaluation: enabling persistence with an empty path leaves the
resolved persistence path EMPTY — `WithPersistence` overwrites the
initialised default unconditionally — although the fixed default path
constant is "./langchaingo" and the option's documentation promises it is
used for an empty path. (Defaults when the persistence option is absent:
persistence disabled, compression off.) -/
theorem persistence_empty_path_stays_empty :
    new [WithEmbedder, WithPersistence "" false]
      = .ok { initialStore with persistent := true, persistPath := "", embedder := some () }
    ∧ (initialStore : Store).persistPath = defaultPersistPath
    ∧ defaultPersistPath = "./langchaingo"
    ∧ ("" : String) ≠ defaultPersistPath
    ∧ new [WithEmbedder] = .ok { initialStore with embedder := some () } := by
  refine ⟨rfl, rfl, rfl, ?_, rfl⟩
  decide

theorem validateOptions_ok_filters (o : Options)
    (h : validateOptions o = .ok ()) : o.filters ≠ some FilterVal.other := by
  intro hf
  unfold validateOptions at h
  rw [hf] at h
  split_ifs at h

/-- C10: `SimilaritySearch` can never surface the panic of the
`opts.Filters.(map[string]string)` type assertion: once `validateOptions`
has accepted the options, a present filter is necessarily a
string-to-string map, so the failing branch of the extraction is
unreachable. -/
theorem similaritySearch_filter_assertion_unreachable
    (s : Store) (qe : QueryFn) (q : String) (nd : Nat) (options : List VSOption) :
    similaritySearch s qe q nd options ≠ .error .panicFilterAssertion := by
  intro hcontra
  unfold similaritySearch at hcontra
  cases hval : validateOptions (getOptions (storeDefaults s) options) with
  | error e => simp [hval] at hcontra
  | ok u =>
    cases u
    have hne := validateOptions_ok_filters _ hval
    cases hfo : (getOptions (storeDefaults s) options).filters with
    | none =>
      simp only [hval, hfo, extractFilters] at hcontra
      cases hc : getCollection s.db (getOptions (storeDefaults s) options).nameSpace with
      | none => simp [hc] at hcontra
      | some coll =>
        simp only [hc] at hcontra
        cases hq : qe coll q nd none with
        | error e => simp [hq] at hcontra
        | ok results => simp [hq] at hcontra
    | some fv =>
      cases fv with
      | strMap m =>
        simp only [hval, hfo, extractFilters] at hcontra
        cases hc : getCollection s.db (getOptions (storeDefaults s) options).nameSpace with
        | none => simp [hc] at hcontra
        | some coll =>
          simp only [hc] at hcontra
          cases hq : qe coll q nd (some m) with
          | error e => simp [hq] at hcontra
          | ok results => simp [hq] at hcontra
      | other => exact hne hfo

/-! ### Concrete data for the witnesses -/

/-- A concrete document with purely string-valued metadata. -/
def docTokyo : Document :=
  { pageContent := "Tokyo", metadata := [("population", MetaVal.str "9.7")], score := 0 }

/-- A second concrete document with purely string-valued metadata. -/
def docKyoto : Document :=
  { pageContent := "Kyoto", metadata := [("area", MetaVal.str "828")], score := 0 }

/-- A concrete store whose default namespace "ns" already has an (empty)
collection. -/
def storeWithColl : Store := { defaultCollectionName := "ns", db := [("ns", [])] }

/-- A concrete query result with similarity 1. -/
def qrTokyo : QueryResult :=
  { content := "Tokyo", metadata := [("population", "9.7")], similarity := 1 }

/-- A concrete query engine returning the single result `qrTokyo`. -/
def qeConst : QueryFn := fun _ _ _ _ => .ok [qrTokyo]

/-! ### Witnesses -/

theorem addDocuments_one_fresh_id_per_document_witness :
    ∃ dbF, addDocuments storeNs embedOk uuidSeq 0 [docTokyo, docKyoto] []
        = (.ok (idsFrom uuidSeq 0 [docTokyo, docKyoto].length), dbF)
      ∧ (idsFrom uuidSeq 0 [docTokyo, docKyoto].length).length
          = [docTokyo, docKyoto].length
      ∧ (idsFrom uuidSeq 0 [docTokyo, docKyoto].length).Nodup
      ∧ idsFrom uuidSeq 0 [docTokyo, docKyoto].length
          = (List.range [docTokyo, docKyoto].length).map (fun i => uuidSeq (0 + i)) :=
  addDocuments_one_fresh_id_per_document storeNs embedOk uuidSeq 0
    [docTokyo, docKyoto] [] [[], []] rfl (by decide) rfl (by decide) uuidSeq_injective

theorem similaritySearch_threshold_filters_witness :
    similaritySearch storeWithColl qeConst "q" 1 []
      = .ok ((([qrTokyo]).filter
          (fun r => decide ((getOptions (storeDefaults storeWithColl) []).scoreThreshold
            ≤ r.similarity))).map resultToDoc)
    ∧ ∀ d ∈ (([qrTokyo]).filter
          (fun r => decide ((getOptions (storeDefaults storeWithColl) []).scoreThreshold
            ≤ r.similarity))).map resultToDoc,
        (getOptions (storeDefaults storeWithColl) []).scoreThreshold ≤ d.score :=
  similaritySearch_threshold_filters storeWithColl qeConst "q" 1 [] none [] [qrTokyo]
    rfl rfl rfl rfl

theorem metadata_string_roundtrip_witness :
    ∃ stored, convertMetadata [("population", MetaVal.str "9.7")] = .ok stored
      ∧ (resultToDoc
          { content := "Tokyo", metadata := stored, similarity := 1 }).metadata
        = [("population", MetaVal.str "9.7")]
      ∧ stored.map (fun kv => kv.1)
        = [("population", MetaVal.str "9.7")].map (fun kv => kv.1) :=
  metadata_string_roundtrip [("population", MetaVal.str "9.7")] "Tokyo" 1 (by decide)

theorem addDocuments_metadata_error_aborts_witness :
    addDocuments storeNs embedOk uuidSeq 0 ([docTokyo] ++ badDoc :: [docKyoto]) []
      = (.error .metadataNotString,
         addAll
           (getOrCreateCollection storeNs.db
             (getOptions (storeDefaults storeNs) []).nameSpace)
           (getOptions (storeDefaults storeNs) []).nameSpace
           (expectedStored uuidSeq 0 [docTokyo] [[], [], []]))
    ∧ getCollection
        (addAll
          (getOrCreateCollection storeNs.db
            (getOptions (storeDefaults storeNs) []).nameSpace)
          (getOptions (storeDefaults storeNs) []).nameSpace
          (expectedStored uuidSeq 0 [docTokyo] [[], [], []]))
        (getOptions (storeDefaults storeNs) []).nameSpace
      = some (((getCollection storeNs.db
            (getOptions (storeDefaults storeNs) []).nameSpace).getD [])
          ++ expectedStored uuidSeq 0 [docTokyo] [[], [], []])
    ∧ (expectedStored uuidSeq 0 [docTokyo] [[], [], []]).length = [docTokyo].length :=
  addDocuments_metadata_error_aborts storeNs embedOk uuidSeq 0
    [docTokyo] badDoc [docKyoto] [] [[], [], []]
    rfl (by decide) (by decide) rfl (by decide)

theorem validation_failure_fail_fast_witness :
    addDocuments storeNs embedOk uuidSeq 0 [docTokyo] [WithScoreThreshold 2]
      = (.error (.invalidOptions .thresholdOutOfRange), storeNs.db)
    ∧ similaritySearch storeNs qeConst "q" 1 [WithScoreThreshold 2]
      = .error (.invalidOptions .thresholdOutOfRange) :=
  validation_failure_fail_fast storeNs [docTokyo] [WithScoreThreshold 2] "q" 1
    embedOk uuidSeq 0 qeConst .thresholdOutOfRange rfl

theorem similaritySearch_namespace_not_found_witness :
    similaritySearch storeNs qeConst "q" 1 [] = .error .namespaceNotFound
    ∧ (getCollection (addDocuments storeNs embedOk uuidSeq 0 [docTokyo] []).2
        (getOptions (storeDefaults storeNs) []).nameSpace).isSome = true :=
  similaritySearch_namespace_not_found storeNs qeConst "q" 1 [] embedOk uuidSeq 0
    [docTokyo] rfl rfl

theorem similaritySearch_filter_assertion_unreachable_witness :
    similaritySearch storeNs qeConst "q" 1 [] ≠ .error .panicFilterAssertion :=
  similaritySearch_filter_assertion_unreachable storeNs qeConst "q" 1 []

end Chromem
